import Mathlib

/-!
# Verification of the ComplyQuick content-enhancement pipeline

This file embeds, in Lean 4, the slide-enhancement core of the repository:

* `src/services/bulk_enhancement_service.py` — batch ("bulk") enhancement with
  output-count reconciliation (`enhance_all_slides`, `_parse_enhanced_explanations`);
* `src/services/slide_enhancement_service.py` — single-target enhancement
  (`enhance_specific_slides`, `_validate_input`);
* `src/services/base_openai_service.py` — the completion client with bounded
  retry and exponential backoff (`_make_openai_request`);
* `src/services/ppt_explanation.py` — the coverage verifier
  (`_verify_content_coverage`, `_semantic_verify_content_coverage`,
  `_extract_content_segments`) and the per-slide processor
  (`_process_single_slide`).

The external text-completion capability is modelled as an oracle function from
prompt to response (or, for the retry client, from attempt number to outcome),
and the external sentence-embedding capability as an oracle from
(segment, explanation) to a similarity or an error.  All Python string
operations are modelled on `List Char` with structurally recursive functions so
that every definition evaluates inside the kernel.
-/

namespace ComplyQuick

/-! ## Character classes and elementary string operations

Python's `str.strip()` / `str.split()` treat the six characters below as
whitespace; `re`'s `\s` is the same set (for ASCII input). -/

/-- Python whitespace: the characters stripped by `str.strip()` and matched by
the regex class `\s` on ASCII text. -/
def isPySpace (c : Char) : Bool :=
  c = ' ' || c = '\t' || c = '\n' || c = '\r' || c = '\x0b' || c = '\x0c'

/-- Python `str.strip()` on a character list: drop whitespace at both ends. -/
def pyStrip (l : List Char) : List Char :=
  ((l.dropWhile isPySpace).reverse.dropWhile isPySpace).reverse

/-- Python `str.strip()` on a `String`. -/
def strStrip (s : String) : String := ⟨pyStrip s.data⟩

/-- Python `str.lower()` (ASCII case folding, which is all the code's inputs use). -/
def strLower (s : String) : String := ⟨s.data.map Char.toLower⟩

/-- Tests that `needle` occurs as a contiguous run inside `hay` (auxiliary for
Python's `in` operator on strings). -/
def isSubListOf (needle : List Char) : List Char → Bool
  | [] => needle.isPrefixOf []
  | c :: cs => needle.isPrefixOf (c :: cs) || isSubListOf needle cs

/-- Python's `needle in hay` on strings: contiguous-substring test. -/
def containsSub (hay needle : String) : Bool :=
  isSubListOf needle.data hay.data

/-- Python `str.split('\n')`: split at every newline, keeping empty pieces. -/
def splitNl : List Char → List (List Char)
  | [] => [[]]
  | '\n' :: cs => [] :: splitNl cs
  | c :: cs =>
    match splitNl cs with
    | r :: rs => (c :: r) :: rs
    | [] => [[c]]

/-- Python `str.split('\n\n')`: split at every (leftmost, non-overlapping) occurrence
of a double newline, keeping empty pieces. -/
def splitNlNl : List Char → List (List Char)
  | [] => [[]]
  | '\n' :: '\n' :: cs => [] :: splitNlNl cs
  | c :: cs =>
    match splitNlNl cs with
    | r :: rs => (c :: r) :: rs
    | [] => [[c]]

/-- Python `str.split()` with no argument: words separated by runs of whitespace,
with no empty words (auxiliary, carrying the current word reversed). -/
def pyWordsAux : List Char → List Char → List (List Char)
  | [], acc => if acc = [] then [] else [acc.reverse]
  | c :: cs, acc =>
    if isPySpace c then
      if acc = [] then pyWordsAux cs [] else acc.reverse :: pyWordsAux cs []
    else pyWordsAux cs (c :: acc)

/-- Python `str.split()` on a `String`, as a list of words. -/
def pyWords (s : String) : List String :=
  (pyWordsAux s.data []).map fun l => (⟨l⟩ : String)

/-- Python `str.replace(pat, rep)`: replace every (leftmost, non-overlapping)
occurrence.  The `skip` counter consumes the remainder of a matched pattern,
keeping the recursion structural. -/
def replaceGo (pat rep : List Char) : List Char → Nat → List Char
  | [], _ => []
  | _ :: cs, skip + 1 => replaceGo pat rep cs skip
  | c :: cs, 0 =>
    if pat.isPrefixOf (c :: cs) then rep ++ replaceGo pat rep cs (pat.length - 1)
    else c :: replaceGo pat rep cs 0

/-- Python `str.replace` on `String`s. -/
def strReplace (s pat rep : String) : String :=
  ⟨replaceGo pat.data rep.data s.data 0⟩

/-! ## Data model

`models.SlideExplanation`: one content unit — a slide number (the unit's
identity), its extracted content text and its generated explanation.  The
services validate at runtime that every entry is a dict with the keys
`slide`, `content`, `explanation`; the typed structure makes those checks
hold by construction. -/

/-- Model of `models.SlideExplanation` (pydantic): `slide : int`, `content : str`,
`explanation : str`. -/
structure SlideExplanation where
  slide : Int
  content : String
  explanation : String
deriving DecidableEq, Repr

instance : Inhabited SlideExplanation := ⟨⟨0, "", ""⟩⟩

deriving instance DecidableEq for Except

/-! ## Bulk enhancement service (`bulk_enhancement_service.py`) -/

/-- The meta-commentary keyword filter of `_parse_enhanced_explanations`
(both the surplus branch and the line-based re-parse use this same list). -/
def skipWords : List String :=
  ["here are", "following are", "below are", "enhanced explanations",
   "slide", "explanation:", "guidelines", "instructions"]

/-- The check `any(skip_word in exp.lower() for skip_word in [...])`. -/
def looksLikeMeta (s : String) : Bool :=
  skipWords.any fun w => containsSub (strLower s) w

/-- The comprehension `[exp.strip() for exp in response.split('\n\n') if exp.strip()]`:
the double-newline-separated, stripped, non-empty blocks of a response. -/
def doubleNewlineBlocks (response : String) : List String :=
  (((splitNlNl response.data).map pyStrip).filter (· ≠ [])).map
    fun l => (⟨l⟩ : String)

/-- The line-based re-parse of `_parse_enhanced_explanations` (shortfall
branch): group stripped, non-empty, non-meta lines into blocks separated by
blank lines, joining each block's lines with single spaces.  `current` is the
block being accumulated, in order. -/
def lineReparseGo : List String → List String → List String
  | [], current =>
    if current = [] then [] else [String.intercalate " " current]
  | line :: rest, current =>
    if line = "" then
      if current = [] then lineReparseGo rest []
      else String.intercalate " " current :: lineReparseGo rest []
    else
      if looksLikeMeta line then lineReparseGo rest current
      else lineReparseGo rest (current ++ [line])

/-- The shortfall branch's alternative parse: split the raw response by single
newlines, strip each line, then group as in `lineReparseGo`. -/
def lineReparse (response : String) : List String :=
  lineReparseGo ((splitNl response.data).map fun l => (⟨pyStrip l⟩ : String)) []

/-- The numbered placeholder `f"[Enhanced explanation {i}]"`. -/
def placeholder (i : Nat) : String :=
  "[Enhanced explanation " ++ Nat.repr i ++ "]"

/-- The final fallback of `_parse_enhanced_explanations`: append numbered
placeholders until the list has `expectedCount` entries (each placeholder is
numbered by the length of the list at the moment it is appended, plus one),
then truncate to `expectedCount`. -/
def padWithPlaceholders (l : List String) (expectedCount : Nat) : List String :=
  (l ++ (List.range (expectedCount - l.length)).map fun i =>
    placeholder (l.length + i + 1)).take expectedCount

/-- Model of `_parse_enhanced_explanations(response, expected_count)`: split by double
newlines; on an exact count match return the blocks; on a surplus drop
meta-looking blocks (falling back to plain truncation when that leaves too
few); on a shortfall retry a line-based re-parse, and if it is still short,
pad with numbered placeholders.  The Python `try/except` wrapper (returning
all placeholders) is unreachable here: every operation in the body is total. -/
def parseEnhancedExplanations (response : String) (expectedCount : Nat) :
    List String :=
  let explanations := doubleNewlineBlocks response
  if explanations.length = expectedCount then explanations
  else if expectedCount < explanations.length then
    let cleaned := explanations.filter fun e => !looksLikeMeta e
    if expectedCount ≤ cleaned.length then cleaned.take expectedCount
    else explanations.take expectedCount
  else
    let potential := lineReparse response
    if expectedCount ≤ potential.length then potential.take expectedCount
    else padWithPlaceholders explanations expectedCount

/-- The caller-side reconciliation in `enhance_all_slides` (lines 104–123):
if the parsed count differs from the batch size, truncate a surplus, pad a
shortfall with each unit's original explanation, and if the count is still
wrong fall back to the batch's original explanations wholesale. -/
def reconcileExplanations (explanations : List String)
    (batch : List SlideExplanation) : List String :=
  if explanations.length = batch.length then explanations
  else
    let adjusted :=
      if batch.length < explanations.length then explanations.take batch.length
      else explanations ++ (batch.drop explanations.length).map (·.explanation)
    if adjusted.length = batch.length then adjusted
    else batch.map (·.explanation)

/-- The `explanation_array[i:i+batch_size]` chunking: split a list into
consecutive chunks of size `cap` (auxiliary; `k` counts the free slots left in
the current chunk `acc`, kept reversed). -/
def chunkGo (capMinusOne : Nat) : List α → List α → Nat → List (List α)
  | [], acc, _ => if acc.isEmpty then [] else [acc.reverse]
  | x :: xs, acc, 0 => acc.reverse :: chunkGo capMinusOne xs [x] capMinusOne
  | x :: xs, acc, k + 1 => chunkGo capMinusOne xs (x :: acc) k

/-- Split `l` into consecutive chunks of size `cap` (the last may be shorter);
`for i in range(0, len(l), cap): l[i:i+cap]`. -/
def chunkList (cap : Nat) (l : List α) : List (List α) :=
  chunkGo (cap - 1) l [] cap

/-- The per-batch loop body of `enhance_all_slides`, iterated over the
batches: parse the model's response for the batch, reconcile the count, and
replace each unit's explanation (`{**item, 'explanation': explanations[j]}`).
`response i` is the completion client's answer for the batch starting at
index `i` (the prompt text, which the universally quantified oracle consumes,
is abstracted into that index). -/
def enhanceBatches (response : Nat → String) (batchSize : Nat) :
    List (List SlideExplanation) → Nat → List SlideExplanation
  | [], _ => []
  | batch :: more, i =>
    let explanations :=
      reconcileExplanations (parseEnhancedExplanations (response i) batch.length)
        batch
    batch.zipWith (fun item e => { item with explanation := e }) explanations
      ++ enhanceBatches response batchSize more (i + batchSize)

/-- Model of `enhance_all_slides(explanation_array, query_prompt, batch_size)`:
validate (non-empty array, structurally complete entries — by typing — and a
positive batch size), then process the array in batches of `batchSize`,
replacing each unit's explanation in place.  The inter-batch `asyncio.sleep(1)`
and all logging are observability only and are not modelled. -/
def enhance_all_slides (response : Nat → String)
    (explanationArray : List SlideExplanation) (batchSize : Int) :
    Except String (List SlideExplanation) :=
  if explanationArray = [] then .error "Explanation array cannot be empty"
  else if batchSize ≤ 0 then .error "Batch size must be a positive integer"
  else
    .ok (enhanceBatches response batchSize.toNat
      (chunkList batchSize.toNat explanationArray) 0)

/-! ## Completion client (`base_openai_service.py`)

`_make_openai_request` runs `for attempt in range(self.max_retries)` with
`self.max_retries = 3` and `self.base_delay = 1`.  A successful attempt
returns its (trimmed) text; a failed attempt records the exception and, when
it is not the last attempt, sleeps `base_delay * 2**attempt + random.random()*0.1`
seconds and retries; after the last failure the loop ends and the last
exception is re-raised.  The external call is modelled by `att : Nat → Except
String String` (the outcome of attempt `k`), the jitter `random.random()*0.1`
by `jit : Nat → ℚ` (the jitter that attempt `k` would draw). -/

/-- What one call of `_make_openai_request` did: its result (the trimmed text
of the successful attempt, or the last exception), how many attempts it made,
and the list of back-off delays it slept, in order. -/
structure RequestLog where
  result : Except String String
  attempts : Nat
  sleeps : List ℚ
deriving DecidableEq, Repr

/-- The retry loop of `_make_openai_request`, from attempt `k` with
`remaining` loop iterations left (the top-level call keeps
`remaining = maxRetries - k`; the fuel only mirrors the `range` bound). -/
def requestGo (att : Nat → Except String String) (jit : Nat → ℚ)
    (baseDelay : ℚ) (maxRetries : Nat) (k : Nat) : Nat → RequestLog
  | 0 => { result := .error "Error code: 500 - None", attempts := 0, sleeps := [] }
  | remaining + 1 =>
    match att k with
    | .ok s => { result := .ok s, attempts := 1, sleeps := [] }
    | .error e =>
      if k < maxRetries - 1 then
        let d := baseDelay * 2 ^ k + jit k
        let rest := requestGo att jit baseDelay maxRetries (k + 1) remaining
        { result := rest.result, attempts := rest.attempts + 1,
          sleeps := d :: rest.sleeps }
      else
        { result := .error e, attempts := 1, sleeps := [] }

/-- Model of `_make_openai_request` with the service's constants
(`max_retries = 3`, `base_delay = 1`), starting at attempt 0. -/
def makeOpenaiRequest (att : Nat → Except String String) (jit : Nat → ℚ) :
    RequestLog :=
  requestGo att jit 1 3 0 3

/-! ## Single-target enhancement service (`slide_enhancement_service.py`) -/

/-- The two failure cases of `SlideEnhancementService._validate_input` that
remain once the inputs are typed (`list`/`dict`/key/`int` checks hold by
construction): an empty array, and a query index outside `0 ≤ i < len`. -/
inductive ValidationError where
  | emptyArray
  | indexOutOfRange
deriving DecidableEq, Repr

/-- Model of `_clean_explanation`: remove every `"Explanation:"` occurrence and strip. -/
def cleanExplanation (explanation : String) : String :=
  strStrip (strReplace explanation "Explanation:" "")

/-- Model of `SlideEnhancementService._validate_input(explanation_array, query_index)`:
fail on an empty array, then on `query_index < 0 or query_index >= len`. -/
def validateInputSingle (explanationArray : List SlideExplanation)
    (queryIndex : Int) : Except ValidationError Unit :=
  if explanationArray = [] then .error .emptyArray
  else if queryIndex < 0 ∨ (explanationArray.length : Int) ≤ queryIndex then
    .error .indexOutOfRange
  else .ok ()

/-- The full-context string `enhance_specific_slides` builds from the cleaned
array: one `"Slide {slide}: {content}\nExplanation: {explanation}"` line per
unit, joined by newlines. -/
def slideContext (cleanedArray : List SlideExplanation) : String :=
  String.intercalate "\n" (cleanedArray.map fun item =>
    "Slide " ++ toString item.slide ++ ": " ++ item.content ++
      "\nExplanation: " ++ item.explanation)

/-- The enhancement prompt of `enhance_specific_slides` (its English template
text is abbreviated — it never affects control flow; the interpolated data is
kept: the full context, the target unit's slide number, and the caller's
request). -/
def singleEnhancementPrompt (context : String) (slide : Int)
    (queryPrompt : String) : String :=
  "You are an expert at enhancing slide explanations. " ++
    "Given the following slides and their explanations:\n" ++ context ++
    "\nPlease enhance ONLY the explanation for slide " ++ toString slide ++
    " based on this request:\n" ++ queryPrompt

/-- Model of `enhance_specific_slides(explanation_array, query_index, query_prompt)`:
validate, build the full-slide context from prefix-cleaned explanations, ask
the completion client for one rewritten explanation, and return a copy of the
array with only position `query_index` replaced (by the cleaned response).
The second component records the prompts sent to the completion client, in
order — empty exactly when no external call was made. -/
def enhance_specific_slides (oracle : String → String)
    (explanationArray : List SlideExplanation) (queryIndex : Int)
    (queryPrompt : String) :
    Except ValidationError (List SlideExplanation) × List String :=
  match validateInputSingle explanationArray queryIndex with
  | .error e => (.error e, [])
  | .ok _ =>
    let cleanedArray := explanationArray.map fun item =>
      { item with explanation := cleanExplanation item.explanation }
    let context := slideContext cleanedArray
    let target := explanationArray.getD queryIndex.toNat default
    let prompt := singleEnhancementPrompt context target.slide queryPrompt
    let enhanced := oracle prompt
    let updated := explanationArray.set queryIndex.toNat
      { target with explanation := cleanExplanation enhanced }
    (.ok updated, [prompt])

/-! ## Coverage verifier and unit processor (`ppt_explanation.py`) -/

/-- The bullet characters of the regex class `[•\-*]`. -/
def isBulletChar (c : Char) : Bool :=
  c = '•' || c = '-' || c = '*'

/-- A character the capture group `[^•\-*\n]+` accepts: anything but a bullet
character or a newline. -/
def isCapChar (c : Char) : Bool :=
  !(isBulletChar c || c = '\n')

/-- Model of `re.findall(r'\d+', text)`: the maximal runs of digits, in order
(auxiliary; `acc` is the current run, reversed). -/
def digitRunsGo : List Char → List Char → List String
  | [], acc => if acc.isEmpty then [] else [(⟨acc.reverse⟩ : String)]
  | c :: cs, acc =>
    if c.isDigit then digitRunsGo cs (c :: acc)
    else if acc.isEmpty then digitRunsGo cs []
    else (⟨acc.reverse⟩ : String) :: digitRunsGo cs []

/-- Model of `re.findall(r'\d+', text)` on a `String`. -/
def digitRuns (s : String) : List String := digitRunsGo s.data []

/-- Scanner state for `re.findall(r'[•\-*]\s*([^•\-*\n]+)', text)`:
either looking for a bullet character; or consuming the `\s*` run after one
(remembering the last non-newline whitespace seen, the single character the
regex engine falls back to capturing when no proper capture follows); or
accumulating a capture (reversed). -/
inductive BulletScanMode where
  | idle : BulletScanMode
  | afterBullet : Option Char → BulletScanMode
  | capture : List Char → BulletScanMode

/-- Model of `re.findall(r'[•\-*]\s*([^•\-*\n]+)', text)` as a single left-to-right
scan.  Derivation from the regex engine's leftmost, greedy, backtracking
search: after a bullet character the greedy `\s*` consumes the whole
whitespace run; if the next character can start the capture (it is neither a
bullet nor a newline — any non-whitespace, non-bullet character qualifies,
and so does no other, since newlines are whitespace) the capture is that
character together with the following maximal run of non-bullet, non-newline
characters; otherwise the engine backtracks inside the whitespace run, and
the longest `\s*` prefix that still lets the capture match ends just before
the run's last non-newline character, so the capture is exactly that single
whitespace character (everything after it in the run is a newline).  If the
run holds no non-newline character the match fails and the search restarts
after the bullet — equivalent to continuing the scan, as the skipped
whitespace contains no bullet.  After a match the search resumes at the first
unconsumed character. -/
def bulletScanGo : List Char → BulletScanMode → List (List Char)
  | [], .idle => []
  | [], .afterBullet wl =>
    match wl with
    | some ch => [[ch]]
    | none => []
  | [], .capture acc => [acc.reverse]
  | c :: cs, .idle =>
    if isBulletChar c then bulletScanGo cs (.afterBullet none)
    else bulletScanGo cs .idle
  | c :: cs, .afterBullet wl =>
    if isPySpace c then
      bulletScanGo cs (.afterBullet (if c = '\n' then wl else some c))
    else if isBulletChar c then
      match wl with
      | some ch => [ch] :: bulletScanGo cs (.afterBullet none)
      | none => bulletScanGo cs (.afterBullet none)
    else
      bulletScanGo cs (.capture [c])
  | c :: cs, .capture acc =>
    if isBulletChar c then
      acc.reverse :: bulletScanGo cs (.afterBullet none)
    else if c = '\n' then
      acc.reverse :: bulletScanGo cs .idle
    else
      bulletScanGo cs (.capture (c :: acc))

/-- The extraction `bullets = re.findall(r'[•\-*]\s*([^•\-*\n]+)', original_content)`. -/
def bulletMatches (s : String) : List String :=
  (bulletScanGo s.data .idle).map fun l => (⟨l⟩ : String)

/-- The representative bullet terms of `_verify_content_coverage`: for each
regex capture, its first three whitespace-separated words
(`bullet.strip().split()[:3]`), concatenated over all captures. -/
def bulletTerms (s : String) : List String :=
  (bulletMatches s).flatMap fun b => (pyWords (strStrip b)).take 3

/-- Model of `_verify_content_coverage(original_content, explanation)`: the lexical
coverage check.  Every maximal digit run of the source must occur verbatim in
the explanation, and at least 70 % of the bullet terms must occur in it
case-insensitively (`covered_terms >= len(bullet_terms) * 0.7`, modelled
exactly over ℚ as `7 * len ≤ 10 * covered`); each check passes vacuously when
it has nothing to inspect.  The `try/except` wrapper (returning `True`) is
unreachable here: the body is total. -/
def verifyContentCoverage (originalContent explanation : String) : Bool :=
  let numbers := digitRuns originalContent
  let bullets := bulletMatches originalContent
  let numbersCovered :=
    if numbers.isEmpty then true
    else ((numbers.filter fun num => !containsSub explanation num).length = 0 : Bool)
  let bulletsCovered :=
    if bullets.isEmpty then true
    else
      let terms := bulletTerms originalContent
      let covered := terms.countP fun t =>
        containsSub (strLower explanation) (strLower t)
      decide (7 * terms.length ≤ 10 * covered)
  numbersCovered && bulletsCovered

/-- The character class `[•\-*\d\.\s]` whose leading run
`_extract_content_segments` strips from each line. -/
def isBulletNumChar (c : Char) : Bool :=
  isBulletChar c || c.isDigit || c = '.' || isPySpace c

/-- A sentence separator of `re.split(r'[.!?]+', content)`. -/
def isSentenceSep (c : Char) : Bool :=
  c = '.' || c = '!' || c = '?'

/-- Split at every sentence separator (auxiliary; runs of separators only add
empty pieces, which the caller filters out, so collapsing them as the regex
`[.!?]+` does gives the same survivors). -/
def splitSentencesGo : List Char → List Char → List (List Char)
  | [], acc => [acc.reverse]
  | c :: cs, acc =>
    if isSentenceSep c then acc.reverse :: splitSentencesGo cs []
    else splitSentencesGo cs (c :: acc)

/-- Model of `_extract_content_segments(content)`: the stripped, bullet/number-prefix
cleaned lines longer than 3 characters; if none, the stripped sentences longer
than 10 characters; if still none, the whole content as one segment. -/
def extractContentSegments (content : String) : List String :=
  let segments := (splitNl content.data).filterMap fun l =>
    let line := pyStrip l
    if line.isEmpty then none
    else
      let cleaned := line.dropWhile isBulletNumChar
      if !cleaned.isEmpty ∧ 3 < cleaned.length then some (⟨cleaned⟩ : String)
      else none
  if !segments.isEmpty then segments
  else
    let sentences := (splitSentencesGo content.data []).filterMap fun s =>
      let t := pyStrip s
      if !t.isEmpty ∧ 10 < t.length then some (⟨t⟩ : String) else none
    if !sentences.isEmpty then sentences else [content]

/-- The per-segment embedding-and-cosine computation of
`_semantic_verify_content_coverage`, for the segments with non-empty strip:
`sim seg explanation` stands for the external pipeline
`cosine_similarity(encode(seg), encode(explanation))`, which either yields a
similarity or raises.  The first raise aborts the whole loop, as an exception
does in Python. -/
def collectSims (sim : String → String → Except Unit ℚ) (explanation : String) :
    List String → Except Unit (List ℚ)
  | [] => .ok []
  | seg :: rest =>
    if !(pyStrip seg.data).isEmpty then
      match sim seg explanation with
      | .error e => .error e
      | .ok v =>
        match collectSims sim explanation rest with
        | .error e => .error e
        | .ok vs => .ok (v :: vs)
    else collectSims sim explanation rest

/-- Model of `_semantic_verify_content_coverage(original_content, explanation)`:
when the sentence-transformer model is unavailable, fall back to the lexical
check; otherwise compare the mean per-segment similarity against the 0.6
threshold, and on any failure inside the embedding/similarity computation
fall back to the lexical check on the same inputs.  (`np.mean([])` is the
`else 0` branch; the `if not content_segments` branch is kept although
`_extract_content_segments` never returns an empty list.) -/
def semanticVerifyContentCoverage (modelAvailable : Bool)
    (sim : String → String → Except Unit ℚ)
    (originalContent explanation : String) : Bool :=
  if !modelAvailable then verifyContentCoverage originalContent explanation
  else
    let segments := extractContentSegments originalContent
    if segments.isEmpty then true
    else
      match collectSims sim explanation segments with
      | .error _ => verifyContentCoverage originalContent explanation
      | .ok sims =>
        let avg : ℚ := if sims.isEmpty then 0 else sims.sum / sims.length
        decide ((3 / 5 : ℚ) ≤ avg)

/-- Model of `_create_prompt(index, total_slides, slide_text, ...)`: the first slide,
the last slide and each interior slide get distinct templates.  The English
template prose (and the contact-derived sentences) is abbreviated; it never
affects control flow, and the completion oracle the prompts feed is
universally quantified in every theorem. -/
def createPrompt (index totalSlides : Nat) (slideText companyName : String) :
    String :=
  if index = 0 then
    "Create a warm, engaging introduction for " ++ companyName ++
      " training presentation. Slide content:\n" ++ slideText
  else if index = totalSlides - 1 then
    "Create a friendly conclusion for " ++ companyName ++
      " training presentation. Slide content:\n" ++ slideText
  else
    "Create an engaging explanation of this slide for " ++ companyName ++
      " training. Slide content:\n" ++ slideText

/-- The output normalisation in `_process_single_slide`: strip bullet and
bold markers, collapse literal ellipses and double newlines, trim. -/
def cleanPptExplanation (explanation : String) : String :=
  strStrip (strReplace (strReplace (strReplace (strReplace
    (strReplace explanation "•" "") "-" "") "..." ".") "\n\n" " ") "**" "")

/-- The stricter regeneration prompt built when verification fails (template
prose abbreviated; it carries the source text and the previous, incomplete
explanation). -/
def regenerationPrompt (slideText cleanedExplanation : String) : String :=
  "CRITICAL: The previous explanation missed some content. " ++
    "Original slide content:\n" ++ slideText ++
    "\n\nPrevious incomplete explanation:\n" ++ cleanedExplanation

/-- Model of `_process_single_slide`: build the position-dependent prompt, call the
completion client, normalise the output, verify coverage, and on a failed
verification build the stricter prompt and call the completion client exactly
once more, accepting its normalised output unverified.  Returns the
`(index, explanation)` pair the thread pool reassembles by, together with the
prompts sent to the completion client, in order.  (`verification_enabled` is
the constant `True`; the `except` handlers are unreachable here: the body is
total.) -/
def processSingleSlide (completion : String → String) (modelAvailable : Bool)
    (sim : String → String → Except Unit ℚ) (index totalSlides : Nat)
    (slideText companyName : String) : (Nat × String) × List String :=
  let prompt := createPrompt index totalSlides slideText companyName
  let explanation := completion prompt
  let cleaned := cleanPptExplanation explanation
  if semanticVerifyContentCoverage modelAvailable sim slideText cleaned then
    ((index, cleaned), [prompt])
  else
    let enhancedPrompt := regenerationPrompt slideText cleaned
    let cleaned2 := cleanPptExplanation (completion enhancedPrompt)
    ((index, cleaned2), [prompt, enhancedPrompt])

/-! ## Definitions following the spec's words (for refinement comparisons)

The two definitions below are NOT translations of the code: they follow the
spec sentences under test, and are compared against the code's behaviour. -/

/-- Modelled from the spec's words (claim C3): the six-keyword meta-commentary
filter `"here are", "following are", "slide", "explanation:", "guidelines",
"instructions"` (case-insensitive). -/
def specSkipWords : List String :=
  ["here are", "following are", "slide", "explanation:", "guidelines",
   "instructions"]

/-- Modelled from the spec's words (claim C3): a block that looks like
meta-commentary according to the six listed keywords. -/
def specLooksLikeMeta (s : String) : Bool :=
  specSkipWords.any fun w => containsSub (strLower s) w

/-- Modelled from the spec's words (claim C3): surplus reconciliation — drop
the candidate blocks containing one of the six listed keywords, then truncate
to the expected count. -/
def surplusReconcileSpec (response : String) (expectedCount : Nat) :
    List String :=
  ((doubleNewlineBlocks response).filter fun e => !specLooksLikeMeta e).take
    expectedCount

/-- Modelled from the spec's words (claim C9): the lexical verifier with
bullets read as bullet-PREFIXED LINES — a line whose stripped form starts
with a bullet character, its representative terms being the first three words
after the marker.  (The code instead runs a regex that matches bullet
characters anywhere in the text.) -/
def lexicalVerifySpec (sourceText explanation : String) : Bool :=
  let numbers := digitRuns sourceText
  let bulletLines := (splitNl sourceText.data).filterMap fun l =>
    match pyStrip l with
    | c :: rest => if isBulletChar c then some (⟨rest⟩ : String) else none
    | [] => none
  let terms := bulletLines.flatMap fun b => (pyWords (strStrip b)).take 3
  let numbersOk := numbers.all fun num => containsSub explanation num
  let bulletsOk :=
    terms.isEmpty ||
      decide (7 * terms.length ≤ 10 * (terms.countP fun t =>
        containsSub (strLower explanation) (strLower t)))
  numbersOk && bulletsOk

/-! ## Helper lemmas -/

/-- The parser `_parse_enhanced_explanations` always returns exactly `expectedCount`
entries. -/
theorem parseEnhancedExplanations_length (response : String) (n : Nat) :
    (parseEnhancedExplanations response n).length = n := by
  dsimp only [parseEnhancedExplanations]
  split_ifs with h1 h2 h3 h4 <;>
    simp_all [padWithPlaceholders, List.length_take] <;> omega

/-- The caller-side reconciliation is the identity when the parsed count
already matches the batch size. -/
theorem reconcileExplanations_of_length {explanations : List String}
    {batch : List SlideExplanation}
    (h : explanations.length = batch.length) :
    reconcileExplanations explanations batch = explanations := by
  simp [reconcileExplanations, h]

/-- The caller-side reconciliation always yields exactly one explanation per
batch entry. -/
theorem reconcileExplanations_length (explanations : List String)
    (batch : List SlideExplanation) :
    (reconcileExplanations explanations batch).length = batch.length := by
  dsimp only [reconcileExplanations]
  split_ifs with h1 h2 h3 h4 <;>
    simp_all [List.length_take, List.length_append, List.length_map,
      List.length_drop] <;> omega

/-- The identity-and-content projection: everything of a unit except its
explanation. -/
def projIdentity (u : SlideExplanation) : Int × String := (u.slide, u.content)

/-- Replacing explanations via `zipWith` (with one explanation per unit)
keeps each unit's identity and content. -/
theorem zipWith_explanation_projIdentity :
    ∀ (batch : List SlideExplanation) (es : List String),
      es.length = batch.length →
      (batch.zipWith (fun item e => { item with explanation := e }) es).map
          projIdentity =
        batch.map projIdentity
  | [], _, _ => rfl
  | _ :: _, [], h => by simp at h
  | b :: bs, e :: es, h => by
    simpa [projIdentity] using
      zipWith_explanation_projIdentity bs es (by simpa using h)

/-- Chunking loses no element: the concatenation of `chunkGo`'s chunks is the
pending accumulator followed by the input. -/
theorem chunkGo_join (m : Nat) :
    ∀ (l acc : List α) (k : Nat),
      (chunkGo m l acc k).flatten = acc.reverse ++ l
  | [], acc, _ => by
    by_cases h : acc.isEmpty <;> simp_all [chunkGo, List.isEmpty_iff]
  | x :: xs, acc, 0 => by
    simpa [chunkGo] using chunkGo_join m xs [x] m
  | x :: xs, acc, k + 1 => by
    simpa [chunkGo] using chunkGo_join m xs (x :: acc) k

/-- The concatenation of the batches is the input array. -/
theorem chunkList_join (cap : Nat) (l : List α) :
    (chunkList cap l).flatten = l := by
  simpa using chunkGo_join (cap - 1) l [] cap

/-- The per-batch update loop keeps every unit's identity and content, batch
by batch. -/
theorem enhanceBatches_projIdentity (response : Nat → String) (bs : Nat) :
    ∀ (chunks : List (List SlideExplanation)) (i : Nat),
      (enhanceBatches response bs chunks i).map projIdentity =
        chunks.flatten.map projIdentity
  | [], _ => rfl
  | batch :: more, i => by
    have hlen :
        (reconcileExplanations
          (parseEnhancedExplanations (response i) batch.length) batch).length =
          batch.length := reconcileExplanations_length _ _
    simp [enhanceBatches, List.map_append,
      zipWith_explanation_projIdentity batch _ hlen,
      enhanceBatches_projIdentity response bs more (i + bs)]

/-! ## Claim C1 -/

/-- C1: for every valid input (a non-empty array of units — each structurally
complete by typing — and a positive batch size), `enhance_all_slides` returns
a collection of the same length as its input, in the same order, with each
position holding the unit of the same identity (and the same content) as the
input position: entries are replaced, never inserted or removed. -/
theorem enhance_all_slides_preserves_shape (response : Nat → String)
    (explanationArray : List SlideExplanation) (batchSize : Int)
    (hne : explanationArray ≠ []) (hbs : 0 < batchSize) :
    ∃ out, enhance_all_slides response explanationArray batchSize = .ok out ∧
      out.length = explanationArray.length ∧
      ∀ (k : Nat) (hk : k < explanationArray.length) (hk2 : k < out.length),
        (out.get ⟨k, hk2⟩).slide = (explanationArray.get ⟨k, hk⟩).slide ∧
        (out.get ⟨k, hk2⟩).content = (explanationArray.get ⟨k, hk⟩).content := by
  have hok : enhance_all_slides response explanationArray batchSize =
      .ok (enhanceBatches response batchSize.toNat
        (chunkList batchSize.toNat explanationArray) 0) := by
    rw [enhance_all_slides, if_neg hne, if_neg (not_le.mpr hbs)]
  refine ⟨_, hok, ?_, ?_⟩
  all_goals
    have hmap : (enhanceBatches response batchSize.toNat
        (chunkList batchSize.toNat explanationArray) 0).map projIdentity =
        explanationArray.map projIdentity := by
      rw [enhanceBatches_projIdentity, chunkList_join]
  · have := congrArg List.length hmap
    simpa using this
  · intro k hk hk2
    have h := congrArg (fun l => l.get? k) hmap
    simp only [List.get?_map] at h
    rw [List.get?_eq_get hk2, List.get?_eq_get hk] at h
    simp only [Option.map_some'] at h
    injection h with h
    exact ⟨congrArg Prod.fst h, congrArg Prod.snd h⟩

/-- Witness for C1 at a concrete input: two units, batch size 1, a fixed
model response. -/
theorem enhance_all_slides_preserves_shape_witness :
    ∃ out, enhance_all_slides (fun _ => "New text")
        [(⟨1, "a", "x"⟩ : SlideExplanation), ⟨2, "b", "y"⟩] 1 = .ok out ∧
      out.length =
        ([(⟨1, "a", "x"⟩ : SlideExplanation), ⟨2, "b", "y"⟩]).length ∧
      ∀ (k : Nat)
        (hk : k < ([(⟨1, "a", "x"⟩ : SlideExplanation), ⟨2, "b", "y"⟩]).length)
        (hk2 : k < out.length),
        (out.get ⟨k, hk2⟩).slide =
          (([(⟨1, "a", "x"⟩ : SlideExplanation), ⟨2, "b", "y"⟩]).get
            ⟨k, hk⟩).slide ∧
        (out.get ⟨k, hk2⟩).content =
          (([(⟨1, "a", "x"⟩ : SlideExplanation), ⟨2, "b", "y"⟩]).get
            ⟨k, hk⟩).content :=
  enhance_all_slides_preserves_shape (fun _ => "New text")
    [⟨1, "a", "x"⟩, ⟨2, "b", "y"⟩] 1 (by decide) (by decide)

/-! ## Claim C10 -/

/-- C10: `_parse_enhanced_explanations` is total and always returns exactly
`expectedCount` strings; when both the double-newline split and the
line-based re-parse yield fewer than `expectedCount` blocks, the trailing
slots are the numbered placeholders `"[Enhanced explanation N]"`; and hence
the caller's fewer-than-expected branch (reconciliation) is never taken — it
is the identity on the parser's output.  (The parser's `except` branch, which
would return all placeholders, is unreachable in this embedding: the body is
total, which is the content of the no-raise part of the claim.) -/
theorem parseEnhancedExplanations_total_exact (response : String)
    (expectedCount : Nat) :
    (parseEnhancedExplanations response expectedCount).length = expectedCount ∧
    ((doubleNewlineBlocks response).length < expectedCount →
      (lineReparse response).length < expectedCount →
      (parseEnhancedExplanations response expectedCount).drop
          (doubleNewlineBlocks response).length =
        (List.range (expectedCount - (doubleNewlineBlocks response).length)).map
          (fun i =>
            placeholder ((doubleNewlineBlocks response).length + i + 1))) ∧
    ∀ batch : List SlideExplanation,
      reconcileExplanations
          (parseEnhancedExplanations response batch.length) batch =
        parseEnhancedExplanations response batch.length := by
  refine ⟨parseEnhancedExplanations_length response expectedCount, ?_, ?_⟩
  · intro h1 h2
    have hpad : parseEnhancedExplanations response expectedCount =
        doubleNewlineBlocks response ++
          (List.range
            (expectedCount - (doubleNewlineBlocks response).length)).map
            (fun i =>
              placeholder ((doubleNewlineBlocks response).length + i + 1)) := by
      dsimp only [parseEnhancedExplanations]
      rw [if_neg (by omega), if_neg (by omega), if_neg (by omega)]
      dsimp only [padWithPlaceholders]
      exact List.take_of_length_le (by simp; omega)
    rw [hpad, List.drop_append_of_le_length le_rfl]
    simp
  · intro batch
    exact reconcileExplanations_of_length
      (parseEnhancedExplanations_length response batch.length)

/-! ## Claim C2 -/

/-- Counterexample to C2 as stated: in batch-prompt mode with one unit whose
original explanation is `"orig"` and an empty model response (a shortfall the
line-based re-parse cannot fix either), the missing slot is filled with the
numbered placeholder `"[Enhanced explanation 1]"`, not with the unit's
original (pre-enhancement) explanation — while the batch still does not
fail. -/
theorem enhance_all_slides_shortfall_placeholder_cex :
    enhance_all_slides (fun _ => "")
        [(⟨1, "c", "orig"⟩ : SlideExplanation)] 1 =
      .ok [(⟨1, "c", "[Enhanced explanation 1]"⟩ : SlideExplanation)] ∧
    ("[Enhanced explanation 1]" : String) ≠ "orig" := by decide

/-- C2 as amended: on a shortfall the engine first retries the line-based
re-parse (grouping non-empty, non-meta lines into blocks separated by blank
lines) and truncates its result when it suffices; if the re-parse also yields
fewer than `expectedCount` blocks, the missing slots are filled with the
numbered placeholders `"[Enhanced explanation N]"` — not with the units'
original explanations, whose padding branch in the caller is unreachable —
and the batch does not fail: `enhance_all_slides` returns `.ok` on every
valid input. -/
theorem parse_shortfall_policy (response : String) (expectedCount : Nat)
    (hshort : (doubleNewlineBlocks response).length < expectedCount) :
    (expectedCount ≤ (lineReparse response).length →
      parseEnhancedExplanations response expectedCount =
        (lineReparse response).take expectedCount) ∧
    ((lineReparse response).length < expectedCount →
      parseEnhancedExplanations response expectedCount =
        doubleNewlineBlocks response ++
          (List.range
            (expectedCount - (doubleNewlineBlocks response).length)).map
            (fun i =>
              placeholder ((doubleNewlineBlocks response).length + i + 1))) ∧
    ∀ (resp : Nat → String) (units : List SlideExplanation) (bs : Int),
      units ≠ [] → 0 < bs →
      ∃ out, enhance_all_slides resp units bs = .ok out := by
  refine ⟨?_, ?_, ?_⟩
  · intro h
    dsimp only [parseEnhancedExplanations]
    rw [if_neg (by omega), if_neg (by omega), if_pos h]
  · intro h
    dsimp only [parseEnhancedExplanations]
    rw [if_neg (by omega), if_neg (by omega), if_neg (by omega)]
    dsimp only [padWithPlaceholders]
    exact List.take_of_length_le (by simp; omega)
  · intro resp units bs hne hbs
    exact ⟨_, by rw [enhance_all_slides, if_neg hne, if_neg (not_le.mpr hbs)]⟩

/-- Witness for C2's amended theorem at a concrete shortfall: the empty
response against an expected count of 2. -/
theorem parse_shortfall_policy_witness :
    (2 ≤ (lineReparse "").length →
      parseEnhancedExplanations "" 2 = (lineReparse "").take 2) ∧
    ((lineReparse "").length < 2 →
      parseEnhancedExplanations "" 2 =
        doubleNewlineBlocks "" ++
          (List.range (2 - (doubleNewlineBlocks "").length)).map
            (fun i => placeholder ((doubleNewlineBlocks "").length + i + 1))) ∧
    ∀ (resp : Nat → String) (units : List SlideExplanation) (bs : Int),
      units ≠ [] → 0 < bs →
      ∃ out, enhance_all_slides resp units bs = .ok out :=
  parse_shortfall_policy "" 2 (by decide)

/-! ## Claim C3 -/

/-- Counterexample to C3 as stated: the code's meta-commentary filter also
contains the keywords `"below are"` and `"enhanced explanations"`, which the
claim's six-keyword list omits.  For a response of four blocks, the first
containing `"below are"` and none containing a listed keyword, with an
expected count of 3, the code drops the first block and returns the other
three, while the claim's reconciliation (drop blocks with listed keywords,
then truncate) keeps the first block. -/
theorem parse_surplus_keyword_list_cex :
    parseEnhancedExplanations
        "Below are the results\n\nApples grow\n\nBirds sing\n\nCows moo" 3 =
      ["Apples grow", "Birds sing", "Cows moo"] ∧
    surplusReconcileSpec
        "Below are the results\n\nApples grow\n\nBirds sing\n\nCows moo" 3 =
      ["Below are the results", "Apples grow", "Birds sing"] ∧
    (["Apples grow", "Birds sing", "Cows moo"] : List String) ≠
      ["Below are the results", "Apples grow", "Birds sing"] := by decide

/-- C3 as amended: on a surplus, candidate blocks containing any of the
code's eight meta-commentary keywords (`"here are"`, `"following are"`,
`"below are"`, `"enhanced explanations"`, `"slide"`, `"explanation:"`,
`"guidelines"`, `"instructions"`, case-insensitively) are dropped and the
remainder truncated to the expected count — provided at least that many
blocks survive the filter; otherwise the unfiltered blocks are truncated
instead.  The claim's concrete scenario (7 blocks for a batch of 5, exactly
2 blocks containing "guidelines") falls in the first case and is this
theorem's witness. -/
theorem parse_surplus_policy (response : String) (expectedCount : Nat)
    (hsurplus : expectedCount < (doubleNewlineBlocks response).length) :
    parseEnhancedExplanations response expectedCount =
      (if expectedCount ≤
          ((doubleNewlineBlocks response).filter
            fun e => !looksLikeMeta e).length
       then ((doubleNewlineBlocks response).filter
          fun e => !looksLikeMeta e).take expectedCount
       else (doubleNewlineBlocks response).take expectedCount) := by
  dsimp only [parseEnhancedExplanations]
  rw [if_neg (by omega), if_pos hsurplus]

/-- Witness for C3's amended theorem: the claim's concrete scenario — a batch
prompt returning 7 double-newline-separated blocks for a batch of 5, exactly
2 of them containing the word "guidelines"; the parser drops those 2 and
returns exactly the remaining 5 in order. -/
theorem parse_surplus_policy_witness :
    parseEnhancedExplanations
        ("Alpha one\n\nGuidelines apply here\n\nBeta two\n\nGamma three" ++
          "\n\nMore guidelines text\n\nDelta four\n\nEpsilon five") 5 =
      ["Alpha one", "Beta two", "Gamma three", "Delta four",
        "Epsilon five"] := by
  rw [parse_surplus_policy
    ("Alpha one\n\nGuidelines apply here\n\nBeta two\n\nGamma three" ++
      "\n\nMore guidelines text\n\nDelta four\n\nEpsilon five") 5 (by decide)]
  decide

/-! ## Claim C4 -/

/-- C4: `_make_openai_request` makes at most 3 attempts; after each failed
attempt except the last it sleeps `base_delay * 2^attempt + jitter` (attempt
counted from 0, `base_delay = 1`, jitter in `[0, 0.1)`), so each recorded
delay lies in `[2^k, 2^k + 0.1)` for some attempt `k < 2`; it never sleeps
after the final attempt (there is one delay fewer than attempts, and the
delays are exactly those of the non-final attempts, each of which failed);
and when all 3 attempts fail it raises an error carrying the last underlying
failure. -/
theorem makeOpenaiRequest_retry_policy (att : Nat → Except String String)
    (jit : Nat → ℚ) (hjit : ∀ k, 0 ≤ jit k ∧ jit k < 1 / 10) :
    (makeOpenaiRequest att jit).attempts ≤ 3 ∧
    (makeOpenaiRequest att jit).sleeps =
      (List.range ((makeOpenaiRequest att jit).attempts - 1)).map
        (fun k => 1 * 2 ^ k + jit k) ∧
    (∀ k, k < (makeOpenaiRequest att jit).attempts - 1 →
      ∃ e, att k = Except.error e) ∧
    (∀ d ∈ (makeOpenaiRequest att jit).sleeps,
      ∃ k, k < 2 ∧ (1 : ℚ) * 2 ^ k ≤ d ∧ d < 1 * 2 ^ k + 1 / 10) ∧
    ((∀ k, k < 3 → ∃ e, att k = Except.error e) →
      ∃ e, att 2 = Except.error e ∧
        (makeOpenaiRequest att jit).result = Except.error e) := by
  have hbound : ∀ k, (1 : ℚ) * 2 ^ k ≤ 1 * 2 ^ k + jit k ∧
      1 * 2 ^ k + jit k < 1 * 2 ^ k + 1 / 10 := by
    intro k
    obtain ⟨ha, hb⟩ := hjit k
    constructor <;> linarith
  cases h0 : att 0 with
  | ok s0 =>
    have hlog : makeOpenaiRequest att jit = ⟨.ok s0, 1, []⟩ := by
      simp [makeOpenaiRequest, requestGo, h0]
    rw [hlog]
    dsimp only
    refine ⟨by norm_num, by simp, ?_, by simp, ?_⟩
    · intro k hk
      omega
    · intro hall
      obtain ⟨e, he⟩ := hall 0 (by norm_num)
      rw [h0] at he
      exact absurd he (by simp)
  | error e0 =>
    cases h1 : att 1 with
    | ok s1 =>
      have hlog : makeOpenaiRequest att jit =
          ⟨.ok s1, 2, [1 * 2 ^ 0 + jit 0]⟩ := by
        simp [makeOpenaiRequest, requestGo, h0, h1]
      rw [hlog]
      dsimp only
      refine ⟨by norm_num, by simp [List.range_succ], ?_, ?_, ?_⟩
      · intro k hk
        have hk0 : k = 0 := by omega
        exact ⟨e0, hk0 ▸ h0⟩
      · intro d hmem
        have hd0 : d = 1 * 2 ^ 0 + jit 0 := by simpa using hmem
        exact ⟨0, by norm_num, hd0 ▸ hbound 0⟩
      · intro hall
        obtain ⟨e, he⟩ := hall 1 (by norm_num)
        rw [h1] at he
        exact absurd he (by simp)
    | error e1 =>
      have hmem2 : ∀ d, d ∈ [1 * (2 : ℚ) ^ 0 + jit 0, 1 * 2 ^ 1 + jit 1] →
          ∃ k, k < 2 ∧ (1 : ℚ) * 2 ^ k ≤ d ∧ d < 1 * 2 ^ k + 1 / 10 := by
        intro d hmem
        rcases List.mem_pair.mp hmem with hd0 | hd1
        · exact ⟨0, by norm_num, hd0 ▸ hbound 0⟩
        · exact ⟨1, by norm_num, hd1 ▸ hbound 1⟩
      have hk2 : ∀ k, k < 2 → ∃ e, att k = Except.error e := by
        intro k hk
        match k, hk with
        | 0, _ => exact ⟨e0, h0⟩
        | 1, _ => exact ⟨e1, h1⟩
      cases h2 : att 2 with
      | ok s2 =>
        have hlog : makeOpenaiRequest att jit =
            ⟨.ok s2, 3, [1 * 2 ^ 0 + jit 0, 1 * 2 ^ 1 + jit 1]⟩ := by
          simp [makeOpenaiRequest, requestGo, h0, h1, h2]
        rw [hlog]
        dsimp only
        refine ⟨by norm_num, by simp [List.range_succ], fun k hk => hk2 k (by omega),
          hmem2, ?_⟩
        intro hall
        obtain ⟨e, he⟩ := hall 2 (by norm_num)
        rw [h2] at he
        exact absurd he (by simp)
      | error e2 =>
        have hlog : makeOpenaiRequest att jit =
            ⟨.error e2, 3, [1 * 2 ^ 0 + jit 0, 1 * 2 ^ 1 + jit 1]⟩ := by
          simp [makeOpenaiRequest, requestGo, h0, h1, h2]
        rw [hlog]
        dsimp only
        exact ⟨by norm_num, by simp [List.range_succ], fun k hk => hk2 k (by omega),
          hmem2, fun _ => ⟨e2, rfl, rfl⟩⟩

/-- Witness for C4 at a concrete input: every attempt fails, the jitter is
always 0. -/
theorem makeOpenaiRequest_retry_policy_witness :
    (makeOpenaiRequest (fun _ => .error "boom") (fun _ => 0)).attempts ≤ 3 ∧
    (makeOpenaiRequest (fun _ => .error "boom") (fun _ => 0)).sleeps =
      (List.range
        ((makeOpenaiRequest (fun _ => .error "boom")
          (fun _ => 0)).attempts - 1)).map
        (fun k => 1 * 2 ^ k + (fun _ => (0 : ℚ)) k) ∧
    (∀ k, k < (makeOpenaiRequest (fun _ => .error "boom")
        (fun _ => 0)).attempts - 1 →
      ∃ e, (fun _ => (Except.error "boom" : Except String String)) k =
        Except.error e) ∧
    (∀ d ∈ (makeOpenaiRequest (fun _ => .error "boom") (fun _ => 0)).sleeps,
      ∃ k, k < 2 ∧ (1 : ℚ) * 2 ^ k ≤ d ∧ d < 1 * 2 ^ k + 1 / 10) ∧
    ((∀ k, k < 3 →
        ∃ e, (fun _ => (Except.error "boom" : Except String String)) k =
          Except.error e) →
      ∃ e, (fun _ => (Except.error "boom" : Except String String)) 2 =
          Except.error e ∧
        (makeOpenaiRequest (fun _ => .error "boom") (fun _ => 0)).result =
          Except.error e) :=
  makeOpenaiRequest_retry_policy (fun _ => .error "boom") (fun _ => 0)
    (fun _ => ⟨le_refl 0, by norm_num⟩)

/-! ## Claim C5 -/

/-- C5: a unit whose first generated explanation fails coverage verification
triggers exactly one additional completion call — with the stricter
regeneration prompt — and no more, whatever the regenerated result would
verify to (the completion oracle is arbitrary and the second output is never
verified); a unit whose first explanation passes verification triggers no
additional completion call.  The recorded prompt list of
`_process_single_slide` is the exact trace of its completion calls. -/
theorem processSingleSlide_regeneration_bound (completion : String → String)
    (modelAvailable : Bool) (sim : String → String → Except Unit ℚ)
    (index totalSlides : Nat) (slideText companyName : String) :
    (semanticVerifyContentCoverage modelAvailable sim slideText
        (cleanPptExplanation
          (completion (createPrompt index totalSlides slideText companyName)))
        = true →
      (processSingleSlide completion modelAvailable sim index totalSlides
          slideText companyName).2 =
        [createPrompt index totalSlides slideText companyName]) ∧
    (semanticVerifyContentCoverage modelAvailable sim slideText
        (cleanPptExplanation
          (completion (createPrompt index totalSlides slideText companyName)))
        = false →
      (processSingleSlide completion modelAvailable sim index totalSlides
          slideText companyName).2 =
        [createPrompt index totalSlides slideText companyName,
          regenerationPrompt slideText
            (cleanPptExplanation (completion
              (createPrompt index totalSlides slideText companyName)))]) := by
  constructor <;> intro h <;> simp [processSingleSlide, h]

/-- Witness for C5 at a concrete input: with the embedding capability
unavailable the verifier is lexical; the source text `"Item 7"` contains the
digit run `"7"`, the model's empty answer does not, so verification fails and
exactly the two prompts are issued. -/
theorem processSingleSlide_regeneration_bound_witness :
    (semanticVerifyContentCoverage false (fun _ _ => .ok 0) "Item 7"
        (cleanPptExplanation
          ((fun _ => "") (createPrompt 1 3 "Item 7" "Acme"))) = true →
      (processSingleSlide (fun _ => "") false (fun _ _ => .ok 0) 1 3
          "Item 7" "Acme").2 =
        [createPrompt 1 3 "Item 7" "Acme"]) ∧
    (semanticVerifyContentCoverage false (fun _ _ => .ok 0) "Item 7"
        (cleanPptExplanation
          ((fun _ => "") (createPrompt 1 3 "Item 7" "Acme"))) = false →
      (processSingleSlide (fun _ => "") false (fun _ _ => .ok 0) 1 3
          "Item 7" "Acme").2 =
        [createPrompt 1 3 "Item 7" "Acme",
          regenerationPrompt "Item 7"
            (cleanPptExplanation ((fun _ => "")
              (createPrompt 1 3 "Item 7" "Acme")))]) :=
  processSingleSlide_regeneration_bound (fun _ => "") false (fun _ _ => .ok 0)
    1 3 "Item 7" "Acme"

/-! ## Claim C6 -/

/-- Counterexample to C6 as stated: for the empty collection (where every
target index is out of range) the validation fails with the EMPTY-ARRAY
error, not the index-out-of-range one — `_validate_input` checks emptiness
first. -/
theorem enhance_specific_slides_empty_array_cex :
    enhance_specific_slides (fun _ => "") [] 0 "p" =
      (.error .emptyArray, []) ∧
    ValidationError.emptyArray ≠ ValidationError.indexOutOfRange := by decide

/-- C6 as amended: for every NON-EMPTY collection of units and every target
index with `targetIndex < 0` or `targetIndex ≥ len(units)`,
`enhance_specific_slides` fails with the index-out-of-range validation error
before any completion call is made (the recorded prompt trace is empty); for
every in-range target index the validation succeeds.  (The empty collection
also fails before any completion call, but with the empty-array validation
error.) -/
theorem enhance_specific_slides_index_validation (oracle : String → String)
    (units : List SlideExplanation) (queryIndex : Int) (queryPrompt : String)
    (hne : units ≠ []) :
    ((queryIndex < 0 ∨ (units.length : Int) ≤ queryIndex) →
      enhance_specific_slides oracle units queryIndex queryPrompt =
        (.error .indexOutOfRange, [])) ∧
    ((0 ≤ queryIndex ∧ queryIndex < (units.length : Int)) →
      validateInputSingle units queryIndex = .ok ()) := by
  constructor
  · intro h
    have hval : validateInputSingle units queryIndex =
        .error .indexOutOfRange := by
      rw [validateInputSingle, if_neg hne, if_pos h]
    simp [enhance_specific_slides, hval]
  · rintro ⟨h0, h1⟩
    rw [validateInputSingle, if_neg hne,
      if_neg (not_or.mpr ⟨not_lt.mpr h0, not_le.mpr h1⟩)]

/-- Witness for C6's amended theorem: one unit, target index 5. -/
theorem enhance_specific_slides_index_validation_witness :
    (((5 : Int) < 0 ∨
        (([(⟨1, "a", "x"⟩ : SlideExplanation)]).length : Int) ≤ 5) →
      enhance_specific_slides (fun _ => "r")
          [(⟨1, "a", "x"⟩ : SlideExplanation)] 5 "p" =
        (.error .indexOutOfRange, [])) ∧
    ((0 ≤ (5 : Int) ∧
        (5 : Int) < (([(⟨1, "a", "x"⟩ : SlideExplanation)]).length : Int)) →
      validateInputSingle [(⟨1, "a", "x"⟩ : SlideExplanation)] 5 = .ok ()) :=
  enhance_specific_slides_index_validation (fun _ => "r")
    [⟨1, "a", "x"⟩] 5 "p" (by decide)

/-! ## Claim C7 -/

/-- C7: for every valid input, `enhance_specific_slides` rewrites only the
unit at the target index — the returned collection has the same length (and
order) as the input and every other position is exactly the input unit,
identity, content and explanation unchanged. -/
theorem enhance_specific_slides_frame (oracle : String → String)
    (units : List SlideExplanation) (queryIndex : Int) (queryPrompt : String)
    (h0 : 0 ≤ queryIndex) (h1 : queryIndex < (units.length : Int)) :
    ∃ out prompts,
      enhance_specific_slides oracle units queryIndex queryPrompt =
        (.ok out, prompts) ∧
      out.length = units.length ∧
      ∀ (k : Nat) (hk : k < units.length) (hk2 : k < out.length),
        k ≠ queryIndex.toNat →
        out.get ⟨k, hk2⟩ = units.get ⟨k, hk⟩ := by
  have hne : units ≠ [] := by
    intro h
    rw [h] at h1
    simp at h1
    omega
  have hval : validateInputSingle units queryIndex = .ok () := by
    rw [validateInputSingle, if_neg hne,
      if_neg (not_or.mpr ⟨not_lt.mpr h0, not_le.mpr h1⟩)]
  simp only [enhance_specific_slides, hval]
  refine ⟨_, _, rfl, List.length_set .., ?_⟩
  intro k hk hk2 hkne
  simp only [List.get_eq_getElem]
  exact List.getElem_set_ne (fun h => hkne h.symm) _

/-- Witness for C7 at a concrete input: two units, target index 0. -/
theorem enhance_specific_slides_frame_witness :
    ∃ out prompts,
      enhance_specific_slides (fun _ => "Explanation: better")
          [(⟨1, "a", "x"⟩ : SlideExplanation), ⟨2, "b", "y"⟩] 0 "fix it" =
        (.ok out, prompts) ∧
      out.length =
        ([(⟨1, "a", "x"⟩ : SlideExplanation), ⟨2, "b", "y"⟩]).length ∧
      ∀ (k : Nat)
        (hk : k < ([(⟨1, "a", "x"⟩ : SlideExplanation), ⟨2, "b", "y"⟩]).length)
        (hk2 : k < out.length),
        k ≠ (0 : Int).toNat →
        out.get ⟨k, hk2⟩ =
          ([(⟨1, "a", "x"⟩ : SlideExplanation), ⟨2, "b", "y"⟩]).get ⟨k, hk⟩ :=
  enhance_specific_slides_frame (fun _ => "Explanation: better")
    [⟨1, "a", "x"⟩, ⟨2, "b", "y"⟩] 0 "fix it" (by decide) (by decide)

/-! ## Claim C8 -/

/-- C8: the semantic verifier returns exactly the lexical verifier's verdict
on the same pair of inputs both when the embedding capability is unavailable
(`self.sentence_model is None`) and when any failure occurs inside the
embedding/similarity computation (the per-segment oracle raises, which aborts
the loop and lands in the `except` fallback). -/
theorem semanticVerify_fallback (sim : String → String → Except Unit ℚ)
    (originalContent explanation : String) :
    semanticVerifyContentCoverage false sim originalContent explanation =
      verifyContentCoverage originalContent explanation ∧
    ((∃ e, collectSims sim explanation
        (extractContentSegments originalContent) = .error e) →
      semanticVerifyContentCoverage true sim originalContent explanation =
        verifyContentCoverage originalContent explanation) := by
  constructor
  · simp [semanticVerifyContentCoverage]
  · rintro ⟨e, he⟩
    cases hseg : (extractContentSegments originalContent).isEmpty with
    | true =>
      rw [List.isEmpty_iff.mp hseg] at he
      simp [collectSims] at he
    | false =>
      simp [semanticVerifyContentCoverage, hseg, he]

/-- Witness for C8 at a concrete input: an embedding oracle that always
raises. -/
theorem semanticVerify_fallback_witness :
    semanticVerifyContentCoverage false (fun _ _ => .error ())
        "hello world line!" "x" =
      verifyContentCoverage "hello world line!" "x" ∧
    ((∃ e, collectSims (fun _ _ => .error ()) "x"
        (extractContentSegments "hello world line!") = .error e) →
      semanticVerifyContentCoverage true (fun _ _ => .error ())
          "hello world line!" "x" =
        verifyContentCoverage "hello world line!" "x") :=
  semanticVerify_fallback (fun _ _ => .error ()) "hello world line!" "x"

/-! ## Claim C9 -/

/-- Counterexample to C9 as stated: the code does not extract bullets from
bullet-PREFIXED LINES — its regex `[•\-*]\s*([^•\-*\n]+)` fires on bullet
characters anywhere in the text.  On the source `"state-of-the-art"` (no
digits, no bullet-prefixed line) the claim's verifier passes vacuously, but
the code treats the in-word hyphens as bullets, extracts the terms `"of"`,
`"the"`, `"art"`, finds none of them in the empty explanation, and fails. -/
theorem verifyContentCoverage_bullet_lines_cex :
    verifyContentCoverage "state-of-the-art" "" = false ∧
    lexicalVerifySpec "state-of-the-art" "" = true := by decide

/-- C9 as amended: the lexical verifier passes iff (a) every maximal digit
run of the source occurs verbatim in the explanation, and (b) at least 70 %
of the bullet representative terms — the first three words of each capture of
the regex `[•\-*]\s*([^•\-*\n]+)`, which matches bullet characters anywhere,
not only at line heads — occur in the explanation case-insensitively
(`7·total ≤ 10·covered`, the exact-rational reading of
`covered >= len * 0.7`).  Both checks are vacuously true when the source has
no digits resp. no regex captures. -/
theorem verifyContentCoverage_characterization
    (originalContent explanation : String) :
    verifyContentCoverage originalContent explanation = true ↔
      (∀ num ∈ digitRuns originalContent,
        containsSub explanation num = true) ∧
      7 * (bulletTerms originalContent).length ≤
        10 * ((bulletTerms originalContent).countP fun t =>
          containsSub (strLower explanation) (strLower t)) := by
  by_cases hnum : (digitRuns originalContent).isEmpty
  all_goals by_cases hbul : (bulletMatches originalContent).isEmpty
  · have h1 := List.isEmpty_iff.mp hnum
    have h2 := List.isEmpty_iff.mp hbul
    simp [verifyContentCoverage, bulletTerms, h1, h2]
  · have h1 := List.isEmpty_iff.mp hnum
    simp [verifyContentCoverage, h1, hbul]
  · have h2 := List.isEmpty_iff.mp hbul
    simp [verifyContentCoverage, bulletTerms, h2, hnum,
      List.length_eq_zero, List.filter_eq_nil]
  · simp [verifyContentCoverage, hnum, hbul,
      List.length_eq_zero, List.filter_eq_nil]

end ComplyQuick
